import Mathlib

/-!
Verification of the background job execution and polling subsystem of the
BookMarkManager repository (a YouTube video-bookmarking web app), together
with the transcript-rendering utilities of `TranscriptModal.jsx`.

The JavaScript sources are shallowly embedded: strings manipulated
character-by-character become `List Char`, JS numbers arising from
`Number(...)` become `Option Nat` (with `none` playing the role of `NaN`),
and the React component state of `App.jsx` becomes an explicit `AppState`
record transformed by pure functions.
-/

namespace BookMarkManager

/-! ### TranscriptModal.jsx : parseTimestampToSeconds -/

/-- Numeric value of a digit string, as JS `Number` computes it for an
all-digit string: fold base-10 over the characters. -/
def digitsToNat (cs : List Char) : Nat :=
  cs.foldl (fun acc c => acc * 10 + (c.toNat - '0'.toNat)) 0

/-- JS `Number(str)` restricted to the inputs that occur in timestamp
parsing: an all-digit string yields its numeric value (the empty string
yields `0`, as `Number("")` does); any string containing a non-digit is
modelled as `NaN` (`none`).  Signs, whitespace, decimals and exponents do
not occur in timestamp parts and are out of scope. -/
def jsNumber (cs : List Char) : Option Nat :=
  if cs.all Char.isDigit then some (digitsToNat cs) else none

/-- JS `str.split(':')` on a list of characters. -/
def splitOnColon : List Char → List (List Char)
  | [] => [[]]
  | c :: rest =>
    if c = ':' then [] :: splitOnColon rest
    else
      match splitOnColon rest with
      | [] => [[c]]
      | r :: rs => (c :: r) :: rs

/-- `NaN`-propagating addition on JS numbers. -/
def nanAdd : Option Nat → Option Nat → Option Nat
  | some a, some b => some (a + b)
  | _, _ => none

/-- `NaN`-propagating multiplication by a constant on JS numbers
(`none * k = NaN`). -/
def nanMulConst (k : Nat) : Option Nat → Option Nat
  | some a => some (a * k)
  | none => none

/-- JS array indexing `parts[i]`: out-of-range indexing yields `undefined`,
which behaves as `NaN` in the arithmetic below. -/
def listGetNum (parts : List (Option Nat)) (i : Nat) : Option Nat :=
  (parts.get? i).bind id

/-- `parseTimestampToSeconds` from `TranscriptModal.jsx`:
split on `':'`, map `Number`; with three parts return
`parts[0]*3600 + parts[1]*60 + parts[2]`, otherwise
`parts[0]*60 + parts[1]`. -/
def parseTimestampToSeconds (timestamp : List Char) : Option Nat :=
  let parts := (splitOnColon timestamp).map jsNumber
  if parts.length = 3 then
    nanAdd (nanAdd (nanMulConst 3600 (listGetNum parts 0))
      (nanMulConst 60 (listGetNum parts 1))) (listGetNum parts 2)
  else
    nanAdd (nanMulConst 60 (listGetNum parts 0)) (listGetNum parts 1)

theorem jsNumber_of_digits {cs : List Char} (h : cs.all Char.isDigit) :
    jsNumber cs = some (digitsToNat cs) := by
  simp [jsNumber, h]

/-- C9: for every timestamp string splitting into three colon-separated
numeric parts `h:mm:ss`, `parseTimestampToSeconds` returns
`h*3600 + m*60 + s`, and for every string splitting into two numeric parts
`m:ss` it returns `m*60 + s`. -/
theorem C9_parseTimestampToSeconds_correct :
    (∀ ts a b c : List Char, splitOnColon ts = [a, b, c] →
      a.all Char.isDigit → b.all Char.isDigit → c.all Char.isDigit →
      parseTimestampToSeconds ts =
        some (digitsToNat a * 3600 + digitsToNat b * 60 + digitsToNat c)) ∧
    (∀ ts a b : List Char, splitOnColon ts = [a, b] →
      a.all Char.isDigit → b.all Char.isDigit →
      parseTimestampToSeconds ts =
        some (digitsToNat a * 60 + digitsToNat b)) := by
  constructor
  · intro ts a b c hsplit ha hb hc
    simp [parseTimestampToSeconds, hsplit, jsNumber_of_digits, ha, hb, hc,
      listGetNum, nanMulConst, nanAdd]
  · intro ts a b hsplit ha hb
    simp [parseTimestampToSeconds, hsplit, jsNumber_of_digits, ha, hb,
      listGetNum, nanMulConst, nanAdd]

/-- Witness for C9 at the concrete timestamps `"1:02:03"` and `"4:05"`. -/
theorem C9_parseTimestampToSeconds_witness :
    parseTimestampToSeconds ['1', ':', '0', '2', ':', '0', '3'] = some 3723 ∧
    parseTimestampToSeconds ['4', ':', '0', '5'] = some 245 := by
  constructor
  · have h := C9_parseTimestampToSeconds_correct.1
      ['1', ':', '0', '2', ':', '0', '3'] ['1'] ['0', '2'] ['0', '3']
      (by decide) (by decide) (by decide) (by decide)
    rw [h]; decide
  · have h := C9_parseTimestampToSeconds_correct.2
      ['4', ':', '0', '5'] ['4'] ['0', '5'] (by decide) (by decide) (by decide)
    rw [h]; decide

/-! ### TranscriptModal.jsx : renderTranscriptContent

The JS function scans `content` with the global regex
`\[(\d{1,2}:\d{2}(?::\d{2})?)\]`, pushing a plain-text `<span>` for the gap
before each match and an `<a>` whose visible text is `[` + group + `]` for
each match, then a final `<span>` for the trailing text. -/

/-- One rendered segment: a plain-text span, or a timestamp link whose
visible text is the bracketed capture group. -/
inductive Segment
  | text (cs : List Char)
  | link (group : List Char)
deriving DecidableEq, Repr

/-- Visible text of a segment: the span's text, or `[group]` for a link. -/
def Segment.visible : Segment → List Char
  | .text cs => cs
  | .link g => '[' :: g ++ [']']

/-- Match the part of the regex after `\[\d{1,2}:`, i.e.
`\d{2}(?::\d{2})?\]`, against the character list that follows the first
colon.  Returns the remainder of the capture group and the rest of the
input after the closing bracket.  The JS backtracking collapses: after the
two digits, a `]` yields the short form; a `:` must be followed by two
digits and `]` (if not, the empty alternative of the optional group would
need `]` where the `:` stands, so the whole match fails). -/
def matchTail2 : List Char → Option (List Char × List Char)
  | m1 :: m2 :: t =>
    if m1.isDigit && m2.isDigit then
      match t with
      | ']' :: r => some ([m1, m2], r)
      | ':' :: s1 :: s2 :: ']' :: r =>
        if s1.isDigit && s2.isDigit then some ([m1, m2, ':', s1, s2], r)
        else none
      | _ => none
    else none
  | _ => none

/-- Match `\[(\d{1,2}:\d{2}(?::\d{2})?)\]` at the head of the input.
Returns the capture group and the rest of the input after the match.
The `\d{1,2}` backtracking collapses: with two leading digits the next
character must be `:` (retrying with one digit would require the second
digit to be `:`), and with one leading digit the next character must be
`:`. -/
def matchTs : List Char → Option (List Char × List Char)
  | '[' :: c1 :: c2 :: t =>
    if c1.isDigit then
      if c2.isDigit then
        match t with
        | ':' :: t2 => (matchTail2 t2).map (fun p => (c1 :: c2 :: ':' :: p.1, p.2))
        | _ => none
      else if c2 = ':' then
        (matchTail2 t).map (fun p => (c1 :: ':' :: p.1, p.2))
      else none
    else none
  | _ => none

theorem matchTail2_append {t g r : List Char} (h : matchTail2 t = some (g, r)) :
    t = g ++ ']' :: r := by
  unfold matchTail2 at h
  split at h
  · rename_i m1 m2 t2
    split at h
    · split at h
      · rename_i r2
        injection h with h
        injection h with h1 h2
        subst h1; subst h2
        simp
      · rename_i s1 s2 r2
        split at h
        · injection h with h
          injection h with h1 h2
          subst h1; subst h2
          simp
        · exact absurd h (by simp)
      · exact absurd h (by simp)
    · exact absurd h (by simp)
  · exact absurd h (by simp)

theorem matchTs_append {cs g r : List Char} (h : matchTs cs = some (g, r)) :
    cs = '[' :: g ++ ']' :: r := by
  unfold matchTs at h
  split at h
  · rename_i c1 c2 t
    split at h
    · split at h
      · split at h
        · rename_i t2
          rcases h2 : matchTail2 t2 with _ | p
          · rw [h2] at h; exact absurd h (by simp)
          · rw [h2] at h
            injection h with h
            injection h with h1 hr
            have ht2 := matchTail2_append h2
            subst h1; subst hr; subst ht2
            simp
        · exact absurd h (by simp)
      · split at h
        · rcases h2 : matchTail2 t with _ | p
          · rw [h2] at h; exact absurd h (by simp)
          · rw [h2] at h
            injection h with h
            injection h with h1 hr
            have ht := matchTail2_append h2
            rename_i hceq
            subst h1; subst hr; subst ht; subst hceq
            simp
        · exact absurd h (by simp)
    · exact absurd h (by simp)
  · exact absurd h (by simp)

theorem matchTs_rest_length {cs g r : List Char} (h : matchTs cs = some (g, r)) :
    r.length < cs.length := by
  have he := matchTs_append h
  rw [he]
  simp
  omega

/-- The scanning loop of `renderTranscriptContent`: `pending` holds the
text accumulated since the last match (the slice
`content.slice(lastIndex, match.index)` of the JS code), and a span is
emitted for it only when it is non-empty, exactly as the JS guard
`match.index > lastIndex` (and the final `lastIndex < content.length`)
does. -/
def renderSegments (pending : List Char) : List Char → List Segment
  | [] => if pending.isEmpty then [] else [Segment.text pending]
  | c :: rest =>
    match h : matchTs (c :: rest) with
    | some (g, r) =>
      (if pending.isEmpty then [] else [Segment.text pending]) ++
        Segment.link g :: renderSegments [] r
    | none => renderSegments (pending ++ [c]) rest
termination_by cs => cs.length
decreasing_by
  · exact matchTs_rest_length h
  · simp

/-- `renderTranscriptContent` from `TranscriptModal.jsx`, as the list of
rendered segments.  (When no match occurs the JS function returns the raw
`content` string instead of an array; its visible text is the same as the
single span our scanner emits.) -/
def renderTranscriptContent (content : List Char) : List Segment :=
  renderSegments [] content

/-- Concatenated visible text of a list of segments, in emission order. -/
def segmentsText (segs : List Segment) : List Char :=
  (segs.map Segment.visible).flatten

theorem segmentsText_renderSegments (pending cs : List Char) :
    segmentsText (renderSegments pending cs) = pending ++ cs := by
  induction pending, cs using renderSegments.induct with
  | case1 pending hp =>
    simp_all [renderSegments, segmentsText, List.isEmpty_iff]
  | case2 pending hp =>
    simp_all [renderSegments, segmentsText, Segment.visible, List.isEmpty_iff]
  | case3 pending c rest g r h ih =>
    rw [renderSegments, h]
    have hcs := matchTs_append h
    by_cases hp : pending.isEmpty <;>
      simp_all [segmentsText, Segment.visible, List.isEmpty_iff]
  | case4 pending c rest h ih =>
    rw [renderSegments, h]
    simpa using ih

/-- C10: concatenating the visible text of all segments produced by
`renderTranscriptContent` (plain-text spans plus bracketed timestamp-link
segments, in emission order) yields exactly the original content: no
characters are lost, duplicated or reordered. -/
theorem C10_renderTranscriptContent_preserves_text (content : List Char) :
    segmentsText (renderTranscriptContent content) = content := by
  simpa using segmentsText_renderSegments [] content

/-! ### App.jsx : client poller state

The transcription job statuses, as declared by the `jobs` table
(`pending | downloading | transcribing | completed | failed`). -/

inductive JobStatus
  | pending
  | downloading
  | transcribing
  | completed
  | failed
deriving DecidableEq, Repr

/-- Terminal statuses: `completed` and `failed`. -/
def JobStatus.isTerminal : JobStatus → Bool
  | .completed => true
  | .failed => true
  | _ => false

/-- One entry of the `videos` state array of `App.jsx`, restricted to the
fields the poller reads or writes plus representative untouched fields. -/
structure Video where
  videoId : String
  title : String
  hasTranscript : Bool
  hasSummary : Bool
  transcriptJobStatus : Option JobStatus
deriving DecidableEq, Repr

/-- The `App` component state relevant to transcription polling: the
`videos` array, the `error` banner state, and the
`pollIntervals.current` registry mapping a video id to its interval
handle (a JS object, so at most one entry per key; modelled as an
association list updated by whole-key replacement/removal). -/
structure AppState where
  videos : List Video
  error : Option String
  pollIntervals : List (String × Nat)
deriving DecidableEq, Repr

/-- JS `a || b` for an optional string `a`: `null`/`undefined` and the
empty string are falsy, so they fall back to `b`. -/
def jsOrElse (s : Option String) (dflt : String) : String :=
  match s with
  | some t => if t = "" then dflt else t
  | none => dflt

/-- Outcome of one `apiService.getJobStatus(jobId)` call as seen by the
interval callback in `handleTranscribe`:
the call threw (network failure, or a non-ok response — including
`NotFound` — turned into a thrown `Error` by `api.js`), or it returned a
body without a `job`, or it returned a job with a status and an optional
`errorMessage`. -/
inductive PollResponse
  | fetchFailed (msg : String)
  | okNoJob
  | okJob (status : JobStatus) (errorMessage : Option String)
deriving DecidableEq, Repr

/-- The primitive state updates the poller code performs. -/
inductive UIUpdate
  | setStatus (videoId : String) (st : Option JobStatus)
  | markTranscribed (videoId : String)
  | setError (msg : String)
  | stopInterval (videoId : String)
deriving DecidableEq, Repr

/-- The exact sequence of state updates performed by the body of the
`setInterval` callback in `handleTranscribe` for one poll response:

* on a thrown error: `stopPolling`, `updateVideoJobStatus(videoId, null)`,
  `setError('Error polling transcription status: ' + err.message)`;
* on a response without a job: `stopPolling`,
  `updateVideoJobStatus(videoId, null)`;
* on a job: `updateVideoJobStatus(videoId, job.status)`, then if
  `completed`: `stopPolling`, `markVideoTranscribed`; if `failed`:
  `stopPolling`, `updateVideoJobStatus(videoId, null)`,
  `setError('Transcription failed for video: ' + (job.errorMessage ||
  'Unknown error'))`. -/
def tickUpdates (videoId : String) : PollResponse → List UIUpdate
  | .fetchFailed msg =>
    [.stopInterval videoId, .setStatus videoId none,
     .setError ("Error polling transcription status: " ++ msg)]
  | .okNoJob =>
    [.stopInterval videoId, .setStatus videoId none]
  | .okJob st em =>
    .setStatus videoId (some st) ::
      (if st = .completed then
        [.stopInterval videoId, .markTranscribed videoId]
      else if st = .failed then
        [.stopInterval videoId, .setStatus videoId none,
         .setError ("Transcription failed for video: " ++
           jsOrElse em "Unknown error")]
      else [])

/-- Effect of one primitive update on the component state, mirroring
`updateVideoJobStatus`, `markVideoTranscribed`, `setError` and
`stopPolling` of `App.jsx`. -/
def applyUpdate (s : AppState) : UIUpdate → AppState
  | .setStatus vid st =>
    { s with videos := s.videos.map fun v =>
        if v.videoId = vid then { v with transcriptJobStatus := st } else v }
  | .markTranscribed vid =>
    { s with videos := s.videos.map fun v =>
        if v.videoId = vid then
          { v with hasTranscript := true, transcriptJobStatus := none }
        else v }
  | .setError msg => { s with error := some msg }
  | .stopInterval vid =>
    { s with pollIntervals := s.pollIntervals.filter fun e => !(e.1 == vid) }

/-- One execution of the interval callback on poll response `resp`. -/
def pollTick (videoId : String) (resp : PollResponse) (s : AppState) : AppState :=
  (tickUpdates videoId resp).foldl applyUpdate s

/-- Whether the registry holds an interval for `vid`
(`pollIntervals.current[videoId]` is set). -/
def registryHas (reg : List (String × Nat)) (vid : String) : Bool :=
  reg.any fun e => e.1 == vid

theorem registryHas_filter_self (reg : List (String × Nat)) (vid : String) :
    registryHas (reg.filter fun e => !(e.1 == vid)) vid = false := by
  rw [registryHas, List.any_eq_false]
  intro e he
  have hp := List.of_mem_filter he
  simp at hp
  simp [hp]

/-- C3: when a poll returns `completed`, the poller cancels its timer and
applies the success side-effect: the target video is marked as having the
artifact (`hasTranscript := true`) and its active-job status indicator is
cleared (`transcriptJobStatus := none`); all other videos and the error
banner are untouched. -/
theorem C3_completed_tick (vid : String) (em : Option String) (s : AppState) :
    (pollTick vid (.okJob .completed em) s).videos =
      s.videos.map (fun v =>
        if v.videoId = vid then
          { v with hasTranscript := true, transcriptJobStatus := none }
        else v) ∧
    registryHas (pollTick vid (.okJob .completed em) s).pollIntervals vid = false ∧
    (pollTick vid (.okJob .completed em) s).error = s.error := by
  refine ⟨?_, ?_, ?_⟩
  · simp only [pollTick, tickUpdates, reduceIte, List.foldl, applyUpdate,
      List.map_map]
    apply List.map_congr_left
    intro v _
    by_cases h : v.videoId = vid <;> simp [h, Function.comp]
  · simp only [pollTick, tickUpdates, reduceIte, List.foldl, applyUpdate]
    exact registryHas_filter_self _ _
  · simp [pollTick, tickUpdates, applyUpdate]

/-- Concrete sample state shared by witnesses: one video with a
transcription job in flight. -/
def sampleAppState : AppState :=
  { videos := [{ videoId := "abc123", title := "A video",
                 hasTranscript := false, hasSummary := false,
                 transcriptJobStatus := some .transcribing }],
    error := none,
    pollIntervals := [("abc123", 7)] }

/-- C4, counterexample: on a `failed` poll with `errorDetail = "boom"`,
the displayed error text is not `"boom"`: the code prefixes it with
`"Transcription failed for video: "`, so it does not equal the job's error
detail verbatim. -/
theorem C4_counterexample :
    (pollTick "abc123" (.okJob .failed (some "boom")) sampleAppState).error ≠
      some "boom" := by
  decide

/-- C4 (amended): when a poll returns `failed`, the poller cancels its
timer and surfaces the job's error detail in the error banner, prefixed
with `"Transcription failed for video: "` and falling back to
`"Unknown error"` when the detail is absent or empty; it never silently
drops a failure. -/
theorem C4_failed_tick (vid : String) (em : Option String) (s : AppState) :
    (pollTick vid (.okJob .failed em) s).error =
      some ("Transcription failed for video: " ++ jsOrElse em "Unknown error") ∧
    registryHas (pollTick vid (.okJob .failed em) s).pollIntervals vid = false := by
  refine ⟨?_, ?_⟩
  · simp [pollTick, tickUpdates, applyUpdate]
  · simp only [pollTick, tickUpdates, reduceIte, List.foldl, applyUpdate]
    exact registryHas_filter_self _ _

/-- C5: if the poll call itself throws (network failure, or any non-ok
response such as `NotFound`, which `api.js` turns into a thrown error) or
the poll response contains no job, the poller cancels its timer and only
clears the target's status indicator: every video keeps its
`hasTranscript` flag (and every other field), so neither success nor
failure of the pipeline is assumed. -/
theorem C5_external_stop (vid : String) (s : AppState) (r : PollResponse)
    (h : r = .okNoJob ∨ ∃ m, r = .fetchFailed m) :
    registryHas (pollTick vid r s).pollIntervals vid = false ∧
    (pollTick vid r s).videos =
      s.videos.map (fun v =>
        if v.videoId = vid then { v with transcriptJobStatus := none } else v) := by
  rcases h with h | ⟨m, h⟩ <;>
    subst h <;>
    exact ⟨by
      simp only [pollTick, tickUpdates, List.foldl, applyUpdate]
      exact registryHas_filter_self _ _,
      by simp [pollTick, tickUpdates, applyUpdate]⟩

/-- Witness for C5 at a concrete state and the `okNoJob` response. -/
theorem C5_external_stop_witness :
    registryHas (pollTick "abc123" .okNoJob sampleAppState).pollIntervals "abc123"
        = false ∧
    (pollTick "abc123" PollResponse.okNoJob sampleAppState).videos =
      sampleAppState.videos.map (fun v =>
        if v.videoId = "abc123" then { v with transcriptJobStatus := none }
        else v) :=
  C5_external_stop "abc123" sampleAppState .okNoJob (Or.inl rfl)

/-! ### App.jsx / api.js : starting a transcription job from the client -/

/-- Outcome of `apiService.startTranscription(videoId)` as seen by
`handleTranscribe`: an ok response carrying the created job, or a non-ok
response whose JSON body may carry an `error` field. -/
inductive StartHttpResponse
  | ok (jobId : String)
  | httpError (errorField : Option String)
deriving DecidableEq, Repr

/-- The message of the error thrown by `api.js`'s `startTranscription` for
a non-ok response: `data.error || 'Failed to start transcription'`. -/
def startTranscriptionMessage (errorField : Option String) : String :=
  jsOrElse errorField "Failed to start transcription"

/-- The polling period passed to `setInterval` in `handleTranscribe`,
in milliseconds. -/
def pollIntervalMs : Nat := 4000

/-- The start path of `handleTranscribe`: on success, show `pending`
immediately and install a polling interval (with period `pollIntervalMs`)
for this video in the registry; on a thrown error, only set the error
banner to the thrown message and install no interval.  The second
component is the period of the interval installed, if any. -/
def handleTranscribeStart (videoId : String) (resp : StartHttpResponse)
    (timerId : Nat) (s : AppState) : AppState × Option Nat :=
  match resp with
  | .ok _jobId =>
    let s1 := applyUpdate s (.setStatus videoId (some .pending))
    ({ s1 with pollIntervals :=
        (videoId, timerId) :: s1.pollIntervals.filter fun e => !(e.1 == videoId) },
      some pollIntervalMs)
  | .httpError e =>
    ({ s with error := some (startTranscriptionMessage e) }, none)

/-- C6: after `startJob` succeeds the poller installs a fixed 4000 ms
(4-second) interval, and each poll response carrying a job is reflected
into observable UI state: the first update of the tick is
`updateVideoJobStatus(videoId, job.status)`, and for a non-terminal status
the target video's `transcriptJobStatus` field ends up equal to the
returned status. -/
theorem C6_fixed_interval_reflects_status (vid jobId : String) (t : Nat)
    (s : AppState) (st : JobStatus) (em : Option String)
    (hst : st.isTerminal = false) :
    (handleTranscribeStart vid (.ok jobId) t s).2 = some pollIntervalMs ∧
    pollIntervalMs = 4000 ∧
    (tickUpdates vid (.okJob st em)).head? =
      some (.setStatus vid (some st)) ∧
    (pollTick vid (.okJob st em) s).videos =
      s.videos.map (fun v =>
        if v.videoId = vid then { v with transcriptJobStatus := some st }
        else v) := by
  refine ⟨rfl, rfl, ?_, ?_⟩
  · cases st <;> simp_all [tickUpdates, JobStatus.isTerminal]
  · cases st <;> simp_all [pollTick, tickUpdates, applyUpdate,
      JobStatus.isTerminal]

/-- Witness for C6 at a concrete state and the `transcribing` status. -/
theorem C6_fixed_interval_witness :
    JobStatus.transcribing.isTerminal = false ∧
    ((handleTranscribeStart "abc123" (.ok "j1") 7 sampleAppState).2 =
        some pollIntervalMs ∧
      pollIntervalMs = 4000 ∧
      (tickUpdates "abc123" (.okJob .transcribing none)).head? =
        some (.setStatus "abc123" (some .transcribing)) ∧
      (pollTick "abc123" (.okJob .transcribing none) sampleAppState).videos =
        sampleAppState.videos.map (fun v =>
          if v.videoId = "abc123" then
            { v with transcriptJobStatus := some .transcribing }
          else v)) :=
  ⟨by decide,
   C6_fixed_interval_reflects_status "abc123" "j1" 7 sampleAppState
     .transcribing none (by decide)⟩

/-- C7: reflecting a polled status for one target updates only that
video's `transcriptJobStatus`; every video with a different id is left
completely unchanged (and the list keeps its length), so concurrent
pollers for different targets are independent. -/
theorem C7_update_frame (vid : String) (st : Option JobStatus) (s : AppState)
    (i : Nat) (v : Video) (hv : s.videos[i]? = some v) :
    (applyUpdate s (.setStatus vid st)).videos.length = s.videos.length ∧
    (v.videoId ≠ vid →
      (applyUpdate s (.setStatus vid st)).videos[i]? = some v) ∧
    (v.videoId = vid →
      (applyUpdate s (.setStatus vid st)).videos[i]? =
        some { v with transcriptJobStatus := st }) := by
  refine ⟨by simp [applyUpdate], ?_, ?_⟩
  · intro hne
    simp [applyUpdate, List.getElem?_map, hv, hne]
  · intro heq
    simp [applyUpdate, List.getElem?_map, hv, heq]

/-- Concrete two-video state for the C7 witness. -/
def twoVideoState : AppState :=
  { videos :=
      [{ videoId := "abc123", title := "A video", hasTranscript := false,
         hasSummary := false, transcriptJobStatus := some .downloading },
       { videoId := "xyz789", title := "Another video", hasTranscript := true,
         hasSummary := true, transcriptJobStatus := none }],
    error := none,
    pollIntervals := [("abc123", 3)] }

/-- Witness for C7: polling target `"abc123"` leaves the `"xyz789"` video
untouched. -/
theorem C7_update_frame_witness :
    ({ videoId := "xyz789", title := "Another video", hasTranscript := true,
       hasSummary := true, transcriptJobStatus := none : Video }.videoId ≠
        "abc123") ∧
    (applyUpdate twoVideoState
        (.setStatus "abc123" (some .transcribing))).videos[1]? =
      some { videoId := "xyz789", title := "Another video",
             hasTranscript := true, hasSummary := true,
             transcriptJobStatus := none } :=
  ⟨by decide,
   (C7_update_frame "abc123" (some .transcribing) twoVideoState 1
      { videoId := "xyz789", title := "Another video", hasTranscript := true,
        hasSummary := true, transcriptJobStatus := none } rfl).2.1 (by decide)⟩

/-! ### App.jsx : the polling loop as a trace -/

/-- Does a poll response show a terminal job status? -/
def observesTerminal : PollResponse → Bool
  | .okJob st _ => st.isTerminal
  | _ => false

/-- A run of one video's polling loop: `rs` lists the responses
`getJobStatus` would deliver at the successive scheduled ticks.  A tick
executes (issuing a poll) only while the video's interval is still in the
registry — once `clearInterval` has run, the callback never fires again.
Returns the polls actually issued and the final state. -/
def runPoller (videoId : String) :
    AppState → List PollResponse → List PollResponse × AppState
  | s, [] => ([], s)
  | s, r :: rs =>
    if registryHas s.pollIntervals videoId then
      let p := runPoller videoId (pollTick videoId r s) rs
      (r :: p.1, p.2)
    else ([], s)

theorem registryHas_applyUpdate_false {s : AppState} {vid : String}
    (h : registryHas s.pollIntervals vid = false) (u : UIUpdate) :
    registryHas (applyUpdate s u).pollIntervals vid = false := by
  cases u with
  | setStatus vid2 st => simpa [applyUpdate] using h
  | markTranscribed vid2 => simpa [applyUpdate] using h
  | setError msg => simpa [applyUpdate] using h
  | stopInterval vid2 =>
    simp only [applyUpdate]
    rw [registryHas, List.any_eq_false]
    intro e he
    have hmem := List.mem_of_mem_filter he
    rw [registryHas, List.any_eq_false] at h
    exact h e hmem

theorem registryHas_foldl_false {s : AppState} {vid : String}
    (h : registryHas s.pollIntervals vid = false) (us : List UIUpdate) :
    registryHas ((us.foldl applyUpdate s).pollIntervals) vid = false := by
  induction us generalizing s with
  | nil => exact h
  | cons u us ih => exact ih (registryHas_applyUpdate_false h u)

theorem registryHas_foldl_stop {us : List UIUpdate} {vid : String}
    (h : UIUpdate.stopInterval vid ∈ us) (s : AppState) :
    registryHas ((us.foldl applyUpdate s).pollIntervals) vid = false := by
  induction us generalizing s with
  | nil => simp at h
  | cons u us ih =>
    rcases List.mem_cons.mp h with h | h
    · subst h
      exact registryHas_foldl_false
        (by simpa [applyUpdate] using registryHas_filter_self s.pollIntervals vid)
        us
    · exact ih h _

theorem registryHas_pollTick_terminal {vid : String} {r : PollResponse}
    (hr : observesTerminal r = true) (s : AppState) :
    registryHas (pollTick vid r s).pollIntervals vid = false := by
  refine registryHas_foldl_stop ?_ s
  cases r with
  | fetchFailed msg => simp [tickUpdates]
  | okNoJob => simp [tickUpdates]
  | okJob st em =>
    cases st <;> simp_all [observesTerminal, JobStatus.isTerminal, tickUpdates]

theorem runPoller_cons (vid : String) (s : AppState) (r : PollResponse)
    (rs : List PollResponse) :
    runPoller vid s (r :: rs) =
      if registryHas s.pollIntervals vid then
        (r :: (runPoller vid (pollTick vid r s) rs).1,
          (runPoller vid (pollTick vid r s) rs).2)
      else ([], s) := rfl

theorem runPoller_of_registry_false {vid : String} {s : AppState}
    (h : registryHas s.pollIntervals vid = false) (rs : List PollResponse) :
    runPoller vid s rs = ([], s) := by
  cases rs with
  | nil => rfl
  | cons r rs => simp [runPoller_cons, h]

/-- C2: once the poller observes a terminal status (`completed` or
`failed`) in a poll response, that poll is the last one of the run — no
further `getJobStatus` call is ever issued for the job — and the final
state's registry no longer holds an interval for the video (the timer is
cancelled). -/
theorem C2_no_poll_after_terminal (vid : String) (s : AppState)
    (rs : List PollResponse) :
    ∀ (i : Nat) (ri : PollResponse),
      ((runPoller vid s rs).1)[i]? = some ri →
      observesTerminal ri = true →
      i + 1 = ((runPoller vid s rs).1).length ∧
      registryHas ((runPoller vid s rs).2).pollIntervals vid = false := by
  induction rs generalizing s with
  | nil => intro i ri hget; simp [runPoller] at hget
  | cons r rs ih =>
    intro i ri hget hterm
    by_cases hreg : registryHas s.pollIntervals vid
    · rw [runPoller_cons] at hget ⊢
      simp only [hreg, if_true] at hget ⊢
      match i with
      | 0 =>
        simp only [List.getElem?_cons_zero, Option.some.injEq] at hget
        subst hget
        have hstop := @registryHas_pollTick_terminal vid r hterm s
        have hrun := runPoller_of_registry_false hstop rs
        rw [hrun]
        exact ⟨rfl, hstop⟩
      | i + 1 =>
        have hget2 : ((runPoller vid (pollTick vid r s) rs).1)[i]? = some ri := by
          simpa using hget
        have := ih (pollTick vid r s) i ri hget2 hterm
        refine ⟨?_, this.2⟩
        have h1 := this.1
        simp only [List.length_cons]
        omega
    · have hreg2 : registryHas s.pollIntervals vid = false := by
        simpa using hreg
      rw [runPoller_of_registry_false hreg2 (r :: rs)] at hget
      simp at hget

/-- Witness for C2: a concrete run that polls `transcribing` then
`completed`; the terminal poll at index 1 is the last one and the
registry is empty afterwards. -/
theorem C2_no_poll_after_terminal_witness :
    (((runPoller "abc123" sampleAppState
        [.okJob .transcribing none, .okJob .completed none,
         .okJob .completed none]).1)[1]? =
      some (.okJob .completed none)) ∧
    observesTerminal (.okJob .completed none) = true ∧
    (1 + 1 = ((runPoller "abc123" sampleAppState
        [.okJob .transcribing none, .okJob .completed none,
         .okJob .completed none]).1).length ∧
      registryHas ((runPoller "abc123" sampleAppState
          [.okJob .transcribing none, .okJob .completed none,
           .okJob .completed none]).2).pollIntervals "abc123" = false) :=
  ⟨by decide, by decide,
   C2_no_poll_after_terminal "abc123" sampleAppState
     [.okJob .transcribing none, .okJob .completed none,
      .okJob .completed none] 1 (.okJob .completed none)
     (by decide) (by decide)⟩

/-! ### App.jsx : teardown of the owning view -/

/-- The ambient collection of interval timers: which handles have been
cancelled by `clearInterval`. -/
structure TimerWorld where
  cancelled : List Nat
deriving DecidableEq, Repr

/-- `clearInterval(handle)`. -/
def clearIntervalW (w : TimerWorld) (t : Nat) : TimerWorld :=
  { w with cancelled := t :: w.cancelled }

/-- The `useEffect` cleanup of `App`:
`Object.values(pollIntervals.current).forEach(clearInterval)`. -/
def cleanupOnUnmount (reg : List (String × Nat)) (w : TimerWorld) : TimerWorld :=
  (reg.map Prod.snd).foldl clearIntervalW w

/-- A timer can still fire only while it has not been cancelled. -/
def timerCanFire (w : TimerWorld) (t : Nat) : Bool :=
  !(w.cancelled.contains t)

theorem cancelled_mono {w : TimerWorld} {t : Nat} (h : t ∈ w.cancelled)
    (ts : List Nat) : t ∈ (ts.foldl clearIntervalW w).cancelled := by
  induction ts generalizing w with
  | nil => exact h
  | cons t2 ts ih => exact ih (by simp [clearIntervalW, h])

theorem mem_cancelled_foldl {ts : List Nat} {t : Nat} (h : t ∈ ts)
    (w : TimerWorld) : t ∈ (ts.foldl clearIntervalW w).cancelled := by
  induction ts generalizing w with
  | nil => simp at h
  | cons t2 ts ih =>
    rcases List.mem_cons.mp h with h | h
    · subst h
      exact cancelled_mono (by simp [clearIntervalW]) ts
    · exact ih h _

/-- C8: when the owning view is torn down, the `useEffect` cleanup cancels
every timer tracked in the interval registry, so no tracked timer can fire
after teardown. -/
theorem C8_cleanup_cancels_all (reg : List (String × Nat)) (w : TimerWorld)
    (e : String × Nat) (he : e ∈ reg) :
    timerCanFire (cleanupOnUnmount reg w) e.2 = false := by
  have hmem : e.2 ∈ reg.map Prod.snd := List.mem_map_of_mem Prod.snd he
  have := mem_cancelled_foldl hmem w
  simp [timerCanFire, cleanupOnUnmount, this]

/-- Witness for C8 at a concrete two-entry registry. -/
theorem C8_cleanup_cancels_all_witness :
    (("xyz789", 5) ∈ [("abc123", 3), ("xyz789", 5)]) ∧
    timerCanFire
        (cleanupOnUnmount [("abc123", 3), ("xyz789", 5)] { cancelled := [] })
        ("xyz789", 5).2 = false :=
  ⟨by decide,
   C8_cleanup_cancels_all [("abc123", 3), ("xyz789", 5)] { cancelled := [] }
     ("xyz789", 5) (by decide)⟩

/-! ### Job API (server side)

The backend Python (`routes.py`, `models.py`, `transcription_service.py`)
is not among the sources; only its implementation plan and the spec
describe it, so the Job API is modelled from the spec here. -/

/-- Modelled from the spec: one row of the `jobs` table kept by the
backend `Job` model (missing `backend/app/models.py`). -/
structure ServerJob where
  id : Nat
  videoId : String
  jobType : String
  status : JobStatus
  errorMessage : Option String
deriving DecidableEq, Repr

/-- A job is active while its status is non-terminal. -/
def ServerJob.isActive (j : ServerJob) : Bool :=
  !j.status.isTerminal

/-- Modelled from the spec: the backend state read by the Job API
(missing `backend/app` database layer): existing video ids, video ids
that already have a stored transcript, the job rows, and the id counter
for fresh jobs. -/
structure ServerState where
  videos : List String
  transcripts : List String
  jobs : List ServerJob
  nextJobId : Nat
deriving DecidableEq, Repr

/-- Modelled from the spec: the Job Store's secondary lookup
`getActiveByTarget(targetId, kind)` — the job for the pair whose status is
not terminal, if any (missing `backend/app/models.py`). -/
def getActiveByTarget (jobs : List ServerJob) (videoId jobType : String) :
    Option ServerJob :=
  jobs.find? fun j => j.videoId == videoId && j.jobType == jobType && j.isActive

/-- Result of a start request, as the route reports it:
404-equivalent, 409-equivalent with an error message, or the created job. -/
inductive StartJobResult
  | notFound
  | conflict (error : String)
  | started (job : ServerJob)
deriving DecidableEq, Repr

/-- Modelled from the spec: the backend route
`POST /api/transcribe/<video_id>` (missing `backend/app/routes.py`):
validate the target exists (else `NotFound`), reject when a transcript
already exists or an active transcription job exists for the video (both
`Conflict`), otherwise create a fresh `pending` job record and return it
immediately. -/
def startJob (st : ServerState) (videoId : String) :
    StartJobResult × ServerState :=
  if st.videos.contains videoId then
    if st.transcripts.contains videoId then
      (.conflict "Transcript already exists for this video", st)
    else if (getActiveByTarget st.jobs videoId "transcribe").isSome then
      (.conflict "A transcription job is already in progress for this video",
        st)
    else
      let job : ServerJob :=
        { id := st.nextJobId, videoId := videoId, jobType := "transcribe",
          status := .pending, errorMessage := none }
      (.started job,
        { st with jobs := job :: st.jobs, nextJobId := st.nextJobId + 1 })
  else (.notFound, st)

/-- The active jobs recorded for a `(targetId, kind)` pair. -/
def activeJobsFor (jobs : List ServerJob) (videoId jobType : String) :
    List ServerJob :=
  jobs.filter fun j => j.videoId == videoId && j.jobType == jobType && j.isActive

/-- The per-pair uniqueness invariant of §3 of the spec. -/
def atMostOneActive (jobs : List ServerJob) (videoId jobType : String) : Prop :=
  (activeJobsFor jobs videoId jobType).length ≤ 1

/-- C1: at most one active job exists per `(target, "transcribe")` pair:
when an active job exists for an existing target, a second start request
returns `Conflict` and leaves the server state unchanged; a start request
never breaks the at-most-one-active invariant for any target; and on a
conflict response the client throws the server's error message, which
`handleTranscribe` surfaces in the error banner without installing a
poller (the registry and videos are untouched and no interval is
created). -/
theorem C1_single_active_job (st : ServerState) (t : String) :
    (st.videos.contains t = true →
      (getActiveByTarget st.jobs t "transcribe").isSome = true →
      (∃ m, (startJob st t).1 = .conflict m) ∧ (startJob st t).2 = st) ∧
    (∀ t2 : String, atMostOneActive st.jobs t2 "transcribe" →
      atMostOneActive ((startJob st t).2).jobs t2 "transcribe") ∧
    (∀ (vid m : String) (tid : Nat) (s : AppState), ¬m = "" →
      handleTranscribeStart vid (.httpError (some m)) tid s =
        ({ s with error := some m }, none)) := by
  refine ⟨?_, ?_, ?_⟩
  · intro hvid hact
    have hv : t ∈ st.videos := by simpa using hvid
    by_cases htr : t ∈ st.transcripts
    · simp [startJob, hv, htr]
    · simp [startJob, hv, htr, hact]
  · intro t2 h1
    by_cases hv : t ∈ st.videos
    · by_cases htr : t ∈ st.transcripts
      · simpa [startJob, hv, htr] using h1
      · by_cases hact : (getActiveByTarget st.jobs t "transcribe").isSome
        · simpa [startJob, hv, htr, hact] using h1
        · have hjobs : ((startJob st t).2).jobs =
              { id := st.nextJobId, videoId := t, jobType := "transcribe",
                status := JobStatus.pending, errorMessage := none } ::
                st.jobs := by
            simp [startJob, hv, htr, hact]
          have hnone : getActiveByTarget st.jobs t "transcribe" = none := by
            rcases h2 : getActiveByTarget st.jobs t "transcribe" with _ | j
            · rfl
            · rw [h2] at hact; simp at hact
          rw [getActiveByTarget, List.find?_eq_none] at hnone
          rw [atMostOneActive, activeJobsFor, hjobs, List.filter_cons]
          by_cases ht2 : t = t2
          · subst ht2
            have hfilter :
                (st.jobs.filter fun j =>
                  j.videoId == t && j.jobType == "transcribe" && j.isActive)
                  = [] := by
              rw [List.filter_eq_nil_iff]
              intro j hj
              exact hnone j hj
            rw [hfilter]
            split <;> simp
          · rw [if_neg (by simp [ht2])]
            simpa [atMostOneActive, activeJobsFor] using h1
    · have h2 : (startJob st t).2 = st := by
        have hvb : st.videos.contains t = false := by simpa using hv
        simp [startJob, hv, hvb]
      rw [h2]
      exact h1
  · intro vid m tid s hm
    simp [handleTranscribeStart, startTranscriptionMessage, jsOrElse, hm]

/-- Concrete server state for the C1 witness: target `"abc123"` exists,
has no transcript yet, and has one active (`transcribing`) job. -/
def sampleServerState : ServerState :=
  { videos := ["abc123"],
    transcripts := [],
    jobs := [{ id := 1, videoId := "abc123", jobType := "transcribe",
               status := .transcribing, errorMessage := none }],
    nextJobId := 2 }

/-- Witness for C1: starting a second transcription for `"abc123"` while
one is active returns `Conflict` and creates no job. -/
theorem C1_single_active_job_witness :
    (sampleServerState.videos.contains "abc123" = true) ∧
    ((getActiveByTarget sampleServerState.jobs "abc123" "transcribe").isSome
      = true) ∧
    ((∃ m, (startJob sampleServerState "abc123").1 = .conflict m) ∧
      (startJob sampleServerState "abc123").2 = sampleServerState) :=
  ⟨by decide, by decide,
   (C1_single_active_job sampleServerState "abc123").1 (by decide) (by decide)⟩

end BookMarkManager
